import Mathlib

/-!
Shallow embedding of the `analyze-health` API route (`src/app/api/analyze-health/route.ts`)
and of the constants it imports from `types/health.ts`.

The route is an HTTP handler with five external collaborators: the MongoDB connection
(`dbConnect`), the multipart form parser (`request.formData()`), the generative model
(`model.generateContent(...)` followed by `.text()`), the persistence insert
(`HealthAnalysis.create`), and the reward ledger (`rewardUserForAnalysis`).  Each
collaborator is modelled as a field of an `Env` record: fallible calls are `Except String`
values (the `String` is the JavaScript error message), the form parser is an `Option`
(it is caught locally, not by the top-level catch), and `JSON.parse` is an oracle
`String → Option JsValue` (the JavaScript runtime's parser, external to this repository).
The handler itself is translated statement by statement into the pure function `POSTrun`,
which also returns the ordered trace of external calls it issued and the list of records
it persisted, so that temporal and atomicity claims can be stated.
-/

/-! ### Characters and JavaScript-style string primitives -/

/-- The backtick character, written via its code point. -/
def backtick : Char := Char.ofNat 96

/-- Boolean prefix test on character lists. -/
def isPref : List Char → List Char → Bool
  | [], _ => true
  | _ :: _, [] => false
  | a :: as, b :: bs => a == b && isPref as bs

/-- Drop a single leading newline if present: the `\n?` part of the
fence-stripping regular expressions in the route. -/
def dropNl : List Char → List Char
  | [] => []
  | c :: r => if c = '\n' then r else c :: r

/-- Fuel-indexed engine for global regex replacement of `tag ++ \n?` by the empty
string, scanning left to right exactly as `String.replace(/tag\n?/g, "")` does:
at a match the whole match is consumed and scanning resumes after it; otherwise
one character is emitted.  The tag is passed as head `t0` and tail `ts` so it is
never empty.  The fuel is only a termination device; `removeFence` instantiates
it with the input length, which is always sufficient. -/
def removeFenceF (t0 : Char) (ts : List Char) : Nat → List Char → List Char
  | _, [] => []
  | 0, l => l
  | fuel + 1, c :: cs =>
    if isPref (t0 :: ts) (c :: cs) then
      removeFenceF t0 ts fuel (dropNl (List.drop ts.length cs))
    else
      c :: removeFenceF t0 ts fuel cs

/-- Global removal of `tag ++ \n?` from a character list; models
`String.replace(/tag\n?/g, "")` for a non-empty literal tag. -/
def removeFence (t0 : Char) (ts : List Char) (l : List Char) : List Char :=
  removeFenceF t0 ts l.length l

/-- Whitespace predicate used by the model of `String.prototype.trim`. -/
def isWsChar (c : Char) : Bool :=
  c == ' ' || c == '\t' || c == '\n' || c == '\r' ||
    c == Char.ofNat 11 || c == Char.ofNat 12

/-- Model of `String.prototype.trim`: drop whitespace from both ends. -/
def trimChars (l : List Char) : List Char :=
  ((l.dropWhile isWsChar).reverse.dropWhile isWsChar).reverse

/-- Tail of the tag `\x60\x60\x60json` (everything after its first character). -/
def fenceJsonTail : List Char := [backtick, backtick, 'j', 's', 'o', 'n']

/-- Tail of the tag made of three backticks. -/
def fenceTail : List Char := [backtick, backtick]

/-- The three-backtick fence. -/
def fence3 : List Char := backtick :: fenceTail

/-- The fence with a `json` language tag. -/
def fenceJson : List Char := backtick :: fenceJsonTail

/-- The two chained `replace` calls of the route:
first `/(three backticks)json\n?/g` is removed, then `/(three backticks)\n?/g`. -/
def stripFences (l : List Char) : List Char :=
  removeFence backtick fenceTail (removeFence backtick fenceJsonTail l)

/-- The full cleaning step the route applies to each raw model reply before
`JSON.parse`: both fence removals followed by `trim()`. -/
def cleanText (s : String) : String :=
  String.mk (trimChars (stripFences s.data))

/-- Scanning helper for substring search. -/
def containsSubAux (needle : List Char) : List Char → Bool
  | [] => isPref needle []
  | c :: cs => isPref needle (c :: cs) || containsSubAux needle cs

/-- Model of `String.prototype.includes`. -/
def strIncludes (hay pat : String) : Bool :=
  containsSubAux pat.data hay.data

/-- `sub` occurs contiguously inside `hay` (used to state that a response
detail string embeds a value). -/
def ContainsStr (hay sub : String) : Prop :=
  ∃ pre post, hay = pre ++ sub ++ post

/-! ### Constants from `types/health.ts` -/

/-- `ALLOWED_FILE_TYPES` from `types/health.ts`. -/
def ALLOWED_FILE_TYPES : List String :=
  [ "application/pdf"
  , "text/csv"
  , "application/msword"
  , "application/vnd.openxmlformats-officedocument.wordprocessingml.document"
  , "image/png"
  , "image/jpeg"
  , "image/jpg" ]

/-- `MAX_FILE_SIZE = 20 * 1024 * 1024` from `types/health.ts`. -/
def MAX_FILE_SIZE : Nat := 20 * 1024 * 1024

/-- The string interpolation `${MAX_FILE_SIZE / 1024 / 1024}` (an exact
JavaScript division, since the quotient is the integer 20). -/
def maxFileSizeMBStr : String := toString (MAX_FILE_SIZE / 1024 / 1024)

/-- Model of `(size / 1024 / 1024).toFixed(2)`.  A byte count below 2^53 is an
exact double, and dividing a double by 1024 twice only decrements the exponent,
so the JavaScript value is exactly the rational `size / 2^20`.  `toFixed(2)`
picks the integer `n` closest to `100 * x`, preferring the larger on ties
(round half up), and prints `n` with two decimal places; with denominator 2^20
that integer is `⌊(100 * size + 2^19) / 2^20⌋`. -/
def toFixed2MB (size : Nat) : String :=
  let n := (100 * size + 524288) / 1048576
  toString (n / 100) ++ "." ++ (if n % 100 < 10 then "0" else "") ++ toString (n % 100)

/-! ### JavaScript values as produced by `JSON.parse` -/

/-- A JavaScript value.  `num` carries the canonical string rendering of the
number (`String(x)`), which is all the route ever does with a parsed number:
numbers are only interpolated into template literals and tested for
truthiness. -/
inductive JsValue where
  | undefined
  | null
  | bool (b : Bool)
  | num (rendering : String)
  | str (s : String)
  | arr (elems : List JsValue)
  | obj (fields : List (String × JsValue))

/-- Property lookup in a parsed JSON object (`JSON.parse` output has no
duplicate keys); a missing property reads as `undefined`. -/
def lookupProp : List (String × JsValue) → String → JsValue
  | [], _ => .undefined
  | (k, v) :: rest, key => if k = key then v else lookupProp rest key

/-- Property access `v.key`.  Reading a property of `null` or `undefined`
throws a `TypeError`; reading one of a primitive or of an object lacking it
yields `undefined`. -/
def getProp : JsValue → String → Except String JsValue
  | .null, _ => .error "Cannot read properties of null"
  | .undefined, _ => .error "Cannot read properties of undefined"
  | .obj fs, key => .ok (lookupProp fs key)
  | _, _ => .ok .undefined

/-- Total property access, used where the receiver is already known not to be
`null` or `undefined` (after a first successful access). -/
def getPropD (v : JsValue) (key : String) : JsValue :=
  match getProp v key with
  | .ok w => w
  | .error _ => .undefined

/-- JavaScript truthiness of a value.  For a number the falsy renderings are
those of `0`, `-0` and `NaN`. -/
def truthy : JsValue → Bool
  | .undefined => false
  | .null => false
  | .bool b => b
  | .num r => !(r == "0" || r == "NaN")
  | .str s => !(s == "")
  | .arr _ => true
  | .obj _ => true

mutual

/-- `String(v)`: the conversion template literals apply to an interpolated
value. -/
def jsToString : JsValue → String
  | .undefined => "undefined"
  | .null => "null"
  | .bool true => "true"
  | .bool false => "false"
  | .num r => r
  | .str s => s
  | .arr xs => jsArrToString xs
  | .obj _ => "[object Object]"

/-- `Array.prototype.toString` = `join(",")`, where `null` and `undefined`
elements render as the empty string. -/
def jsArrToString : List JsValue → String
  | [] => ""
  | [x] =>
    (match x with
     | .undefined => ""
     | .null => ""
     | _ => jsToString x)
  | x :: xs =>
    (match x with
     | .undefined => ""
     | .null => ""
     | _ => jsToString x) ++ "," ++ jsArrToString xs

end

/-! ### Data model of the route -/

/-- The classifier verdict substituted when `JSON.parse` fails on the cleaned
classifier reply (route lines 218-223). -/
def defaultVerdict : JsValue :=
  .obj
    [ ("isHealthDocument", .bool true)
    , ("confidence", .num "50")
    , ("documentType", .str "Unknown")
    , ("reason", .str "Could not verify document type") ]

/-- The classifier parsing step: clean the raw reply, try `JSON.parse`, and on
failure substitute the default verdict (route lines 209-224). -/
def parseHealthCheck (jsonParse : String → Option JsValue) (checkText : String) : JsValue :=
  match jsonParse (cleanText checkText) with
  | some v => v
  | none => defaultVerdict

/-- The two prompts the route sends to the model, identified by position. -/
inductive Prompt where
  | classify
  | extract
deriving DecidableEq

/-- One observable call to an external collaborator. -/
inductive Event where
  | dbConnect
  | modelCall (p : Prompt)
  | dbCreate
  | reward
deriving DecidableEq

/-- The uploaded `File` object, as far as the route reads it. -/
structure FileData where
  name : String
  type : String
  size : Nat

/-- The two form fields the route reads (`formData.get(...)` returns `null`
for a missing field). -/
structure ReqForm where
  file : Option FileData
  walletAddress : Option String

/-- Result of `rewardUserForAnalysis`. -/
structure TokenReward where
  earnedTokens : Int
  totalTokens : Int
  isNewUser : Bool

/-- The external world of one request: each collaborator's behaviour.
`formData = none` models `request.formData()` throwing (caught locally);
every `Except.error` carries the JavaScript error message and is caught by
the top-level catch. -/
structure Env where
  dbConnect : Except String Unit
  formData : Option ReqForm
  generate : Prompt → Except String String
  jsonParse : String → Option JsValue
  dbCreate : Except String Unit
  reward : Except String TokenReward

/-- The JSON body and status code of a `NextResponse.json` reply. -/
structure ApiResponse where
  status : Nat
  success : Bool
  error : Option String := none
  details : Option String := none
  analysis : Option JsValue := none
  fileName : Option String := none
  fileSize : Option Nat := none
  fileType : Option String := none
  tokenReward : Option TokenReward := none

/-- The document persisted by `HealthAnalysis.create` (route lines 304-311). -/
structure SavedRecord where
  walletAddress : String
  fileName : String
  fileSize : Nat
  fileType : String
  format : String
  analysisData : JsValue

/-- Everything observable about one request: the HTTP reply, the ordered trace
of external calls, and the records that remain persisted. -/
structure RunResult where
  response : ApiResponse
  events : List Event
  saved : List SavedRecord

/-! ### Response constants and builders (transcribed from the route) -/

/-- An apostrophe, written via its code point. -/
def apos : String := String.singleton (Char.ofNat 39)

/-- Reply when `request.formData()` throws (route lines 121-128). -/
def invalidFormatResponse : ApiResponse :=
  { status := 400
  , success := false
  , error := some "Invalid request format"
  , details := some "Request body must be sent as multipart/form-data. Please ensure you are sending the file using FormData with the correct Content-Type header." }

/-- Reply when the `file` field is absent (route lines 134-142). -/
def missingFileResponse : ApiResponse :=
  { status := 400
  , success := false
  , error := some "Dosya bulunamadı. Lütfen bir dosya yükleyin." }

/-- Reply when the `walletAddress` field is absent (route lines 144-152). -/
def missingWalletResponse : ApiResponse :=
  { status := 400
  , success := false
  , error := some "Wallet adresi gerekli. Lütfen wallet adresinizi gönderin." }

/-- Reply when the MIME type is not allow-listed (route lines 155-164). -/
def unsupportedTypeResponse (t : String) : ApiResponse :=
  { status := 400
  , success := false
  , error := some ("Desteklenmeyen dosya tipi: " ++ t)
  , details := some "Desteklenen formatlar: PDF, CSV, DOC, DOCX, PNG, JPEG" }

/-- Reply when the file exceeds `MAX_FILE_SIZE` (route lines 167-176). -/
def fileTooLargeResponse (size : Nat) : ApiResponse :=
  { status := 400
  , success := false
  , error := some "Dosya boyutu çok büyük"
  , details := some ("Maksimum dosya boyutu: " ++ maxFileSizeMBStr ++ "MB. Yüklenen dosya: "
      ++ toFixed2MB size ++ "MB") }

/-- Fixed opening of the non-health rejection details, up to the interpolated
document type. -/
def nhPart1 : String := "Document Analysis:\n\nType: "

/-- Fixed text between the interpolated document type and confidence. -/
def nhPart2 : String := "\nConfidence: "

/-- Fixed text between the interpolated confidence and reason. -/
def nhPart3 : String := "%\n\nReason: "

/-- Fixed tail of the non-health rejection details: the catalog of accepted
document categories and remediation hints (route lines 239-260). -/
def nhPart4 : String :=
  "\n\nThis system is designed exclusively for analyzing medical and health-related documents such as:\n"
  ++ "• Laboratory test results (blood tests, urine analysis, etc.)\n"
  ++ "• Medical imaging reports (X-ray, MRI, CT scan, ultrasound)\n"
  ++ "• Doctor" ++ apos ++ "s medical reports and prescriptions\n"
  ++ "• Vaccination records and immunization certificates\n"
  ++ "• Health screening and check-up results\n"
  ++ "• Medical diagnosis and treatment plans\n"
  ++ "• Chronic disease monitoring reports\n"
  ++ "• Medical examination findings\n\n"
  ++ "The uploaded document does not appear to contain medical or health data. Please upload a valid health document for analysis.\n\n"
  ++ "If you believe this is a medical document, please ensure:\n"
  ++ "1. The document is clearly readable and not corrupted\n"
  ++ "2. Medical terminology and test results are visible\n"
  ++ "3. The document format is supported (PDF, images, DOC, DOCX)\n\n"
  ++ "For accurate health analysis, please provide documents from:\n"
  ++ "- Hospitals and medical laboratories\n"
  ++ "- Licensed healthcare providers\n"
  ++ "- Certified medical diagnostic centers\n"
  ++ "- Official health institutions"

/-- The template literal of the non-health rejection details (route lines
232-260), with the three interpolated values already rendered. -/
def notHealthDetails (dt cf rs : String) : String :=
  nhPart1 ++ dt ++ nhPart2 ++ cf ++ nhPart3 ++ rs ++ nhPart4

/-- Reply when the verdict is not a health document (route lines 228-263). -/
def notHealthResponse (dt cf rs : String) : ApiResponse :=
  { status := 400
  , success := false
  , error := some "This document is not health-related"
  , details := some (notHealthDetails dt cf rs) }

/-- Model of `s.substring(0, n)`: the first `n` characters (the source counts
UTF-16 units; the model counts code points, which agree outside astral-plane
characters). -/
def jsSubstring (s : String) (n : Nat) : String :=
  String.mk (s.data.take n)

/-- Reply when the extractor output fails to parse (route lines 293-300). -/
def parseFailResponse (analysisText : String) : ApiResponse :=
  { status := 500
  , success := false
  , error := some "Failed to parse AI analysis"
  , details := some ("The AI returned an invalid response format. Raw response: "
      ++ jsSubstring analysisText 500 ++ "...") }

/-- The top-level catch (route lines 329-353): substring rules on the error
message, evaluated in order, then a generic 500 envelope. -/
def errorResponse (msg : String) : ApiResponse :=
  if strIncludes msg "API key" then
    { status := 500, success := false
    , error := some "API key hatası"
    , details := some "Gemini API key geçersiz veya eksik" }
  else if strIncludes msg "quota" then
    { status := 500, success := false
    , error := some "API kotası aşıldı"
    , details := some "Günlük API kullanım limiti doldu" }
  else if strIncludes msg "invalid" then
    { status := 500, success := false
    , error := some "Geçersiz dosya formatı"
    , details := some "Dosya formatı okunamadı veya bozuk" }
  else
    { status := 500, success := false
    , error := some "Analiz sırasında bir hata oluştu"
    , details := some msg }

/-- Reply on full success (route lines 316-327). -/
def successResponse (file : FileData) (parsedAnalysis : JsValue) (tr : TokenReward) : ApiResponse :=
  { status := 200
  , success := true
  , analysis := some parsedAnalysis
  , fileName := some file.name
  , fileSize := some file.size
  , fileType := some file.type
  , tokenReward := some tr }

/-! ### The POST handler

The handler body (route lines 111-355) is translated as a chain of stage
functions, each of which is a contiguous slice of the original function and
threads the trace of external calls issued so far. -/

/-- Route lines 303-327: the `HealthAnalysis.create` insert followed by the
`rewardUserForAnalysis` call and the success reply. -/
def persistStage (env : Env) (file : FileData) (walletAddress : String)
    (parsedAnalysis : JsValue) (ev : List Event) : RunResult :=
  let ev4 := ev ++ [Event.dbCreate]
  match env.dbCreate with
  | .error msg => ⟨errorResponse msg, ev4, []⟩
  | .ok _ =>
    let saved1 : SavedRecord :=
      { walletAddress := walletAddress
      , fileName := file.name
      , fileSize := file.size
      , fileType := file.type
      , format := "json"
      , analysisData := parsedAnalysis }
    let ev5 := ev4 ++ [Event.reward]
    match env.reward with
    | .error msg => ⟨errorResponse msg, ev5, [saved1]⟩
    | .ok tr => ⟨successResponse file parsedAnalysis tr, ev5, [saved1]⟩

/-- Route lines 266-301: the extraction call and the hard-failure parse of its
reply. -/
def extractStage (env : Env) (file : FileData) (walletAddress : String)
    (ev : List Event) : RunResult :=
  let ev3 := ev ++ [Event.modelCall Prompt.extract]
  match env.generate Prompt.extract with
  | .error msg => ⟨errorResponse msg, ev3, []⟩
  | .ok analysisText =>
    match env.jsonParse (cleanText analysisText) with
    | none => ⟨parseFailResponse analysisText, ev3, []⟩
    | some parsedAnalysis => persistStage env file walletAddress parsedAnalysis ev3

/-- Route lines 194-264: the classification call, the defensive parse of its
reply, and the early rejection of non-health documents. -/
def classifyStage (env : Env) (file : FileData) (walletAddress : String)
    (ev : List Event) : RunResult :=
  let ev2 := ev ++ [Event.modelCall Prompt.classify]
  match env.generate Prompt.classify with
  | .error msg => ⟨errorResponse msg, ev2, []⟩
  | .ok checkText =>
    let healthCheck := parseHealthCheck env.jsonParse checkText
    match getProp healthCheck "isHealthDocument" with
    | .error msg => ⟨errorResponse msg, ev2, []⟩
    | .ok ihd =>
      if !truthy ihd then
        ⟨notHealthResponse
            (jsToString (getPropD healthCheck "documentType"))
            (jsToString (getPropD healthCheck "confidence"))
            (jsToString (getPropD healthCheck "reason")), ev2, []⟩
      else extractStage env file walletAddress ev2

/-- The `POST` handler (route lines 111-355): the database connection, the
form parse and the four validation checks, then the classification stage.  The
returned trace records every external call in issue order; `saved` holds the
records persisted by `HealthAnalysis.create`, which are never rolled back. -/
def POSTrun (env : Env) : RunResult :=
  let ev1 := [Event.dbConnect]
  match env.dbConnect with
  | .error msg => ⟨errorResponse msg, ev1, []⟩
  | .ok _ =>
    match env.formData with
    | none => ⟨invalidFormatResponse, ev1, []⟩
    | some fd =>
      match fd.file with
      | none => ⟨missingFileResponse, ev1, []⟩
      | some file =>
        match fd.walletAddress with
        | none => ⟨missingWalletResponse, ev1, []⟩
        | some walletAddress =>
          if !(ALLOWED_FILE_TYPES.contains file.type) then
            ⟨unsupportedTypeResponse file.type, ev1, []⟩
          else if file.size > MAX_FILE_SIZE then
            ⟨fileTooLargeResponse file.size, ev1, []⟩
          else
            classifyStage env file walletAddress ev1

/-! ### The GET handler -/

/-- Body of the `GET` readiness reply. -/
structure GetResponse where
  status : String
  message : String
  supportedFileTypes : List String
  maxFileSize : String
  responseFormat : String

/-- The `GET` handler (route lines 358-366). -/
def GEThandler : GetResponse :=
  { status := "ready"
  , message := "Health analysis API is ready (JSON format only)"
  , supportedFileTypes := ALLOWED_FILE_TYPES
  , maxFileSize := maxFileSizeMBStr ++ "MB"
  , responseFormat := "JSON" }

/-! ### Predicates used in the claims -/

/-- All four upload validation checks of the route pass: the file and wallet
fields are present, the MIME type is allow-listed, and the size is within the
ceiling. -/
def validationPassed (env : Env) : Prop :=
  ∃ fd file w,
    env.formData = some fd ∧ fd.file = some file ∧ fd.walletAddress = some w ∧
      ALLOWED_FILE_TYPES.contains file.type = true ∧ file.size ≤ MAX_FILE_SIZE

/-- An error with message `msg` is thrown by some stage inside the top-level
`try` and reaches the top-level catch: the disjunction enumerates, in pipeline
order, every fallible point of the model together with the conditions for
reaching it. -/
def ThrowsWith (env : Env) (msg : String) : Prop :=
  env.dbConnect = .error msg
  ∨ (env.dbConnect = .ok () ∧
      ∃ fd file w,
        env.formData = some fd ∧ fd.file = some file ∧ fd.walletAddress = some w ∧
        ALLOWED_FILE_TYPES.contains file.type = true ∧ file.size ≤ MAX_FILE_SIZE ∧
        (env.generate Prompt.classify = .error msg
         ∨ ∃ checkText,
             env.generate Prompt.classify = .ok checkText ∧
             (getProp (parseHealthCheck env.jsonParse checkText) "isHealthDocument" = .error msg
              ∨ ∃ ihd,
                  getProp (parseHealthCheck env.jsonParse checkText) "isHealthDocument" = .ok ihd ∧
                  truthy ihd = true ∧
                  (env.generate Prompt.extract = .error msg
                   ∨ ∃ analysisText parsedAnalysis,
                       env.generate Prompt.extract = .ok analysisText ∧
                       env.jsonParse (cleanText analysisText) = some parsedAnalysis ∧
                       (env.dbCreate = .error msg
                        ∨ (env.dbCreate = .ok () ∧ env.reward = .error msg))))))

/-! ### Concrete environments for witnesses and counterexamples -/

/-- A small well-formed upload. -/
def sampleFile : FileData :=
  { name := "report.pdf", type := "application/pdf", size := 1000 }

/-- A classifier verdict accepting the document. -/
def acceptVerdict : JsValue := .obj [("isHealthDocument", .bool true)]

/-- Environment where every collaborator succeeds. -/
def envHappy : Env :=
  { dbConnect := .ok ()
  , formData := some { file := some sampleFile, walletAddress := some "0xabc" }
  , generate := fun _ => .ok "{}"
  , jsonParse := fun _ => some acceptVerdict
  , dbCreate := .ok ()
  , reward := .ok { earnedTokens := 10, totalTokens := 10, isNewUser := true } }

/-- Like `envHappy` but the file is exactly 20 MiB. -/
def envBoundary : Env :=
  { envHappy with
    formData := some
      { file := some { name := "report.pdf", type := "application/pdf", size := 20971520 }
      , walletAddress := some "0xabc" } }

/-- Like `envHappy` but the file is one byte over 20 MiB. -/
def envTooLarge : Env :=
  { envHappy with
    formData := some
      { file := some { name := "report.pdf", type := "application/pdf", size := 20971521 }
      , walletAddress := some "0xabc" } }

/-- Environment whose model replies never parse as JSON. -/
def envNoParse : Env :=
  { envHappy with
    generate := fun _ => .ok "this is not json"
  , jsonParse := fun _ => none }

/-- Environment whose classifier verdict rejects the document. -/
def envRejected : Env :=
  { envHappy with
    jsonParse := fun _ => some (.obj
      [ ("isHealthDocument", .bool false)
      , ("documentType", .str "Invoice")
      , ("confidence", .num "95")
      , ("reason", .str "Financial document") ]) }

/-- Environment where the classifier reply parses but the extractor reply does
not. -/
def envExtractBad : Env :=
  { envHappy with
    generate := fun p => match p with
      | Prompt.classify => .ok "A"
      | Prompt.extract => .ok "B"
  , jsonParse := fun s => if s = "A" then some acceptVerdict else none }

/-- Environment where the request carries no file at all. -/
def envNoFile : Env :=
  { envHappy with
    formData := some { file := none, walletAddress := none } }

/-- Environment where the database connection itself fails. -/
def envDbDown : Env :=
  { envHappy with dbConnect := .error "boom" }

/-- Environment where everything succeeds except the reward-ledger call. -/
def envRewardFails : Env :=
  { envHappy with reward := .error "reward ledger unavailable" }

/-! ## Theorems

### Support lemmas: strings, prefixes, and the replacement engine -/

theorem strData_append (a b : String) : (a ++ b).data = a.data ++ b.data := rfl

theorem strAppend_assoc (a b c : String) : a ++ b ++ c = a ++ (b ++ c) := by
  cases a; cases b; cases c
  show String.mk _ = String.mk _
  simp [String.instAppend, String.append, List.append_assoc]

theorem dropNl_length_le (l : List Char) : (dropNl l).length ≤ l.length := by
  cases l with
  | nil => exact Nat.le_refl _
  | cons c r =>
    simp only [dropNl]
    by_cases h : c = '\n'
    · simp only [if_pos h, List.length_cons]
      omega
    · simp only [if_neg h]
      exact Nat.le_refl _

theorem isPref_length : ∀ {t u : List Char}, isPref t u = true → t.length ≤ u.length := by
  intro t
  induction t with
  | nil => intro u _; simp
  | cons a as ih =>
    intro u h
    cases u with
    | nil => simp [isPref] at h
    | cons b bs =>
      simp only [isPref, Bool.and_eq_true] at h
      simpa using ih h.2

theorem isPref_self_append (t v : List Char) : isPref t (t ++ v) = true := by
  induction t with
  | nil => rfl
  | cons a as ih => simp [isPref, ih]

theorem isPref_no_nl {t : List Char} (hnl : ('\n' : Char) ∉ t) :
    ∀ {u : List Char} (v : List Char), isPref t u = false → isPref t (u ++ '\n' :: v) = false := by
  induction t with
  | nil => intro u v h; simp [isPref] at h
  | cons a as ih =>
    intro u v h
    rw [List.mem_cons, not_or] at hnl
    cases u with
    | nil =>
      have ha : (a == '\n') = false := by
        have : a ≠ '\n' := fun he => hnl.1 he.symm
        simp [this]
      simp [isPref, ha]
    | cons b bs =>
      simp only [isPref] at h
      simp only [List.cons_append, isPref]
      cases hab : (a == b) with
      | false => simp
      | true =>
        rw [hab] at h
        simp only [Bool.true_and] at h ⊢
        exact ih hnl.2 v h

theorem removeFenceF_stable (t0 : Char) (ts : List Char) :
    ∀ n m l, l.length ≤ n → l.length ≤ m →
      removeFenceF t0 ts n l = removeFenceF t0 ts m l := by
  intro n
  induction n with
  | zero =>
    intro m l hn _
    have hl : l = [] := List.length_eq_zero.mp (Nat.le_zero.mp hn)
    subst hl
    cases m <;> rfl
  | succ n ih =>
    intro m l hn hm
    cases l with
    | nil => cases m <;> rfl
    | cons c cs =>
      cases m with
      | zero => simp [List.length_cons] at hm
      | succ m =>
        simp only [List.length_cons, Nat.succ_le_succ_iff] at hn hm
        simp only [removeFenceF]
        cases h : isPref (t0 :: ts) (c :: cs) with
        | true =>
          simp only [if_pos rfl]
          apply ih
          · calc (dropNl (List.drop ts.length cs)).length
                ≤ (List.drop ts.length cs).length := dropNl_length_le _
              _ ≤ cs.length := by simp [List.length_drop]
              _ ≤ n := hn
          · calc (dropNl (List.drop ts.length cs)).length
                ≤ (List.drop ts.length cs).length := dropNl_length_le _
              _ ≤ cs.length := by simp [List.length_drop]
              _ ≤ m := hm
        | false =>
          simp only [Bool.false_eq_true, if_false]
          exact congrArg (c :: ·) (ih m cs hn hm)

theorem removeFence_cons_pos {t0 : Char} {ts : List Char} {c : Char} {cs : List Char}
    (h : isPref (t0 :: ts) (c :: cs) = true) :
    removeFence t0 ts (c :: cs) = removeFence t0 ts (dropNl (List.drop ts.length cs)) := by
  unfold removeFence
  simp only [List.length_cons, removeFenceF, h, if_pos]
  apply removeFenceF_stable
  · calc (dropNl (List.drop ts.length cs)).length
        ≤ (List.drop ts.length cs).length := dropNl_length_le _
      _ ≤ cs.length := by simp [List.length_drop]
  · exact Nat.le_refl _

theorem removeFence_cons_neg {t0 : Char} {ts : List Char} {c : Char} {cs : List Char}
    (h : isPref (t0 :: ts) (c :: cs) = false) :
    removeFence t0 ts (c :: cs) = c :: removeFence t0 ts cs := by
  unfold removeFence
  simp only [List.length_cons, removeFenceF, h, Bool.false_eq_true, if_false]

/-! ### Support lemmas: stage traces and pipeline reduction -/

theorem persistStage_events (env : Env) (file : FileData) (w : String)
    (pa : JsValue) (ev : List Event) :
    ∃ tl, (persistStage env file w pa ev).events = ev ++ tl := by
  unfold persistStage
  cases env.dbCreate with
  | error msg => exact ⟨[Event.dbCreate], rfl⟩
  | ok u =>
    cases env.reward with
    | error msg => exact ⟨[Event.dbCreate, Event.reward], by simp⟩
    | ok tr => exact ⟨[Event.dbCreate, Event.reward], by simp⟩

theorem extractStage_events (env : Env) (file : FileData) (w : String) (ev : List Event) :
    ∃ tl, (extractStage env file w ev).events = ev ++ tl := by
  rcases hg : env.generate Prompt.extract with msg | analysisText
  · exact ⟨[Event.modelCall Prompt.extract], by simp [extractStage, hg]⟩
  · rcases hp : env.jsonParse (cleanText analysisText) with _ | pa
    · exact ⟨[Event.modelCall Prompt.extract], by simp [extractStage, hg, hp]⟩
    · obtain ⟨tl, htl⟩ :=
        persistStage_events env file w pa (ev ++ [Event.modelCall Prompt.extract])
      exact ⟨[Event.modelCall Prompt.extract] ++ tl, by simp [extractStage, hg, hp, htl]⟩

theorem extractStage_mem_extract (env : Env) (file : FileData) (w : String) (ev : List Event) :
    Event.modelCall Prompt.extract ∈ (extractStage env file w ev).events := by
  rcases hg : env.generate Prompt.extract with msg | analysisText
  · simp [extractStage, hg]
  · rcases hp : env.jsonParse (cleanText analysisText) with _ | pa
    · simp [extractStage, hg, hp]
    · obtain ⟨tl, htl⟩ :=
        persistStage_events env file w pa (ev ++ [Event.modelCall Prompt.extract])
      simp [extractStage, hg, hp, htl]

theorem POSTrun_validated {env : Env} {fd : ReqForm} {file : FileData} {w : String}
    (hdb : env.dbConnect = .ok ()) (hfd : env.formData = some fd)
    (hf : fd.file = some file) (hw : fd.walletAddress = some w)
    (hty : ALLOWED_FILE_TYPES.contains file.type = true)
    (hsz : file.size ≤ MAX_FILE_SIZE) :
    POSTrun env = classifyStage env file w [Event.dbConnect] := by
  have hmem : file.type ∈ ALLOWED_FILE_TYPES := by simpa using hty
  simp [POSTrun, hdb, hfd, hf, hw, hmem, Nat.not_lt.mpr hsz]

theorem getProp_defaultVerdict :
    getProp defaultVerdict "isHealthDocument" = .ok (.bool true) := rfl

theorem classifyStage_genError {env : Env} (file : FileData) (w : String) (ev : List Event)
    {msg : String} (hg : env.generate Prompt.classify = .error msg) :
    classifyStage env file w ev =
      ⟨errorResponse msg, ev ++ [Event.modelCall Prompt.classify], []⟩ := by
  simp [classifyStage, hg]

theorem classifyStage_propError {env : Env} (file : FileData) (w : String) (ev : List Event)
    {checkText msg : String} (hg : env.generate Prompt.classify = .ok checkText)
    (hp : getProp (parseHealthCheck env.jsonParse checkText) "isHealthDocument" = .error msg) :
    classifyStage env file w ev =
      ⟨errorResponse msg, ev ++ [Event.modelCall Prompt.classify], []⟩ := by
  simp [classifyStage, hg, hp]

theorem classifyStage_reject {env : Env} (file : FileData) (w : String) (ev : List Event)
    {checkText : String} {ihd : JsValue} (hg : env.generate Prompt.classify = .ok checkText)
    (hp : getProp (parseHealthCheck env.jsonParse checkText) "isHealthDocument" = .ok ihd)
    (ht : truthy ihd = false) :
    classifyStage env file w ev =
      ⟨notHealthResponse
          (jsToString (getPropD (parseHealthCheck env.jsonParse checkText) "documentType"))
          (jsToString (getPropD (parseHealthCheck env.jsonParse checkText) "confidence"))
          (jsToString (getPropD (parseHealthCheck env.jsonParse checkText) "reason"))
      , ev ++ [Event.modelCall Prompt.classify], []⟩ := by
  simp [classifyStage, hg, hp, ht]

theorem classifyStage_accept {env : Env} (file : FileData) (w : String) (ev : List Event)
    {checkText : String} {ihd : JsValue} (hg : env.generate Prompt.classify = .ok checkText)
    (hp : getProp (parseHealthCheck env.jsonParse checkText) "isHealthDocument" = .ok ihd)
    (ht : truthy ihd = true) :
    classifyStage env file w ev =
      extractStage env file w (ev ++ [Event.modelCall Prompt.classify]) := by
  simp [classifyStage, hg, hp, ht]

theorem extractStage_genError {env : Env} (file : FileData) (w : String) (ev : List Event)
    {msg : String} (hg : env.generate Prompt.extract = .error msg) :
    extractStage env file w ev =
      ⟨errorResponse msg, ev ++ [Event.modelCall Prompt.extract], []⟩ := by
  simp [extractStage, hg]

theorem extractStage_parseFail {env : Env} (file : FileData) (w : String) (ev : List Event)
    {analysisText : String} (hg : env.generate Prompt.extract = .ok analysisText)
    (hp : env.jsonParse (cleanText analysisText) = none) :
    extractStage env file w ev =
      ⟨parseFailResponse analysisText, ev ++ [Event.modelCall Prompt.extract], []⟩ := by
  simp [extractStage, hg, hp]

theorem extractStage_parsed {env : Env} (file : FileData) (w : String) (ev : List Event)
    {analysisText : String} {pa : JsValue} (hg : env.generate Prompt.extract = .ok analysisText)
    (hp : env.jsonParse (cleanText analysisText) = some pa) :
    extractStage env file w ev =
      persistStage env file w pa (ev ++ [Event.modelCall Prompt.extract]) := by
  simp [extractStage, hg, hp]

theorem persistStage_dbError {env : Env} (file : FileData) (w : String) (pa : JsValue)
    (ev : List Event) {msg : String} (h : env.dbCreate = .error msg) :
    persistStage env file w pa ev =
      ⟨errorResponse msg, ev ++ [Event.dbCreate], []⟩ := by
  simp [persistStage, h]

theorem persistStage_rewardError {env : Env} (file : FileData) (w : String) (pa : JsValue)
    (ev : List Event) {msg : String} (hc : env.dbCreate = .ok ()) (hr : env.reward = .error msg) :
    persistStage env file w pa ev =
      ⟨errorResponse msg, ev ++ [Event.dbCreate, Event.reward]
      , [{ walletAddress := w, fileName := file.name, fileSize := file.size
         , fileType := file.type, format := "json", analysisData := pa }]⟩ := by
  simp [persistStage, hc, hr]

/-! ### Claim C8: GET readiness payload -/

/-- C8: the GET handler always returns a payload whose `supportedFileTypes`
field is exactly the allow-listed MIME-type list (application/pdf, text/csv,
application/msword, the DOCX type, image/png, image/jpeg, image/jpg) and whose
`maxFileSize` field is the string "20MB". -/
theorem claim_C8_get_readiness :
    GEThandler.supportedFileTypes =
      [ "application/pdf"
      , "text/csv"
      , "application/msword"
      , "application/vnd.openxmlformats-officedocument.wordprocessingml.document"
      , "image/png"
      , "image/jpeg"
      , "image/jpg" ]
    ∧ GEThandler.maxFileSize = "20MB" := by
  constructor
  · rfl
  · rfl

/-! ### Claim C9: the size comparison is strict -/

/-- C9: the size ceiling is exactly 20971520 bytes, and a request whose file
does not exceed it (in particular one of exactly 20 MiB) is not rejected as
too large: the pipeline proceeds past size validation and issues the
classification call. -/
theorem claim_C9_boundary_size_not_rejected :
    MAX_FILE_SIZE = 20971520 ∧
    ∀ (env : Env) (fd : ReqForm) (file : FileData) (w : String),
      env.dbConnect = .ok () →
      env.formData = some fd →
      fd.file = some file →
      fd.walletAddress = some w →
      ALLOWED_FILE_TYPES.contains file.type = true →
      file.size ≤ 20971520 →
      Event.modelCall Prompt.classify ∈ (POSTrun env).events := by
  refine ⟨rfl, ?_⟩
  intro env fd file w hdb hfd hf hw hty hsz
  rw [POSTrun_validated hdb hfd hf hw hty hsz]
  rcases hg : env.generate Prompt.classify with msg | checkText
  · simp [classifyStage_genError file w _ hg]
  · rcases hp : getProp (parseHealthCheck env.jsonParse checkText) "isHealthDocument"
      with msg | ihd
    · simp [classifyStage_propError file w _ hg hp]
    · cases ht : truthy ihd with
      | false => simp [classifyStage_reject file w _ hg hp ht]
      | true =>
        rw [classifyStage_accept file w _ hg hp ht]
        obtain ⟨tl, htl⟩ := extractStage_events env file w
          [Event.dbConnect, Event.modelCall Prompt.classify]
        simp [htl]

/-- Witness for C9 at a file of exactly 20971520 bytes. -/
theorem claim_C9_witness :
    MAX_FILE_SIZE = 20971520 ∧
    Event.modelCall Prompt.classify ∈ (POSTrun envBoundary).events :=
  ⟨claim_C9_boundary_size_not_rejected.1
  , claim_C9_boundary_size_not_rejected.2 envBoundary
      { file := some { name := "report.pdf", type := "application/pdf", size := 20971520 }
      , walletAddress := some "0xabc" }
      { name := "report.pdf", type := "application/pdf", size := 20971520 }
      "0xabc" rfl rfl rfl rfl (by decide) (by decide)⟩

/-! ### Claim C4: oversized files are rejected with the size in the details -/

/-- C4: for every request with file and wallet address present and an
allow-listed MIME type, a file over 20 MiB yields a 400 failure envelope whose
details string reports the actual uploaded size in MiB rounded to two decimal
places (`toFixed2MB`, the exact model of `(size/1024/1024).toFixed(2)`). -/
theorem claim_C4_file_too_large :
    ∀ (env : Env) (fd : ReqForm) (file : FileData) (w : String),
      env.dbConnect = .ok () →
      env.formData = some fd →
      fd.file = some file →
      fd.walletAddress = some w →
      ALLOWED_FILE_TYPES.contains file.type = true →
      file.size > MAX_FILE_SIZE →
      (POSTrun env).response.status = 400 ∧
      (POSTrun env).response.success = false ∧
      (POSTrun env).response.error = some "Dosya boyutu çok büyük" ∧
      (POSTrun env).response.details =
        some ("Maksimum dosya boyutu: " ++ maxFileSizeMBStr ++ "MB. Yüklenen dosya: "
          ++ toFixed2MB file.size ++ "MB") ∧
      ContainsStr ((POSTrun env).response.details.getD "") (toFixed2MB file.size) := by
  intro env fd file w hdb hfd hf hw hty hsz
  have hmem : file.type ∈ ALLOWED_FILE_TYPES := by simpa using hty
  have hrun : POSTrun env = ⟨fileTooLargeResponse file.size, [Event.dbConnect], []⟩ := by
    simp [POSTrun, hdb, hfd, hf, hw, hmem, hsz]
  have hdet : (POSTrun env).response.details =
      some ("Maksimum dosya boyutu: " ++ maxFileSizeMBStr ++ "MB. Yüklenen dosya: "
        ++ toFixed2MB file.size ++ "MB") := by
    simp [hrun, fileTooLargeResponse]
  refine ⟨by simp [hrun, fileTooLargeResponse], by simp [hrun, fileTooLargeResponse],
    by simp [hrun, fileTooLargeResponse], hdet, ?_⟩
  refine ⟨"Maksimum dosya boyutu: " ++ maxFileSizeMBStr ++ "MB. Yüklenen dosya: ", "MB", ?_⟩
  rw [hdet, Option.getD_some]

/-- Witness for C4 at a file of 20971521 bytes (one over the ceiling). -/
theorem claim_C4_witness :
    (POSTrun envTooLarge).response.status = 400 ∧
    (POSTrun envTooLarge).response.success = false ∧
    (POSTrun envTooLarge).response.error = some "Dosya boyutu çok büyük" ∧
    (POSTrun envTooLarge).response.details =
      some ("Maksimum dosya boyutu: " ++ maxFileSizeMBStr ++ "MB. Yüklenen dosya: "
        ++ toFixed2MB 20971521 ++ "MB") ∧
    ContainsStr ((POSTrun envTooLarge).response.details.getD "") (toFixed2MB 20971521) :=
  claim_C4_file_too_large envTooLarge
    { file := some { name := "report.pdf", type := "application/pdf", size := 20971521 }
    , walletAddress := some "0xabc" }
    { name := "report.pdf", type := "application/pdf", size := 20971521 }
    "0xabc" rfl rfl rfl rfl (by decide) (by decide)

/-! ### Claim C1: classifier parse failure falls back to the default verdict -/

/-- C1: whenever the classifier raw output is not valid JSON after
fence-stripping, the request is not failed at that stage: the parsing step
yields exactly the default verdict `{isHealthDocument: true, confidence: 50,
documentType: "Unknown", reason: "Could not verify document type"}` and the
pipeline proceeds to the extraction stage (the extraction model call is
issued). -/
theorem claim_C1_classifier_parse_fallback :
    ∀ (env : Env) (fd : ReqForm) (file : FileData) (w : String) (checkText : String),
      env.dbConnect = .ok () →
      env.formData = some fd →
      fd.file = some file →
      fd.walletAddress = some w →
      ALLOWED_FILE_TYPES.contains file.type = true →
      file.size ≤ MAX_FILE_SIZE →
      env.generate Prompt.classify = .ok checkText →
      env.jsonParse (cleanText checkText) = none →
      parseHealthCheck env.jsonParse checkText =
        JsValue.obj
          [ ("isHealthDocument", .bool true)
          , ("confidence", .num "50")
          , ("documentType", .str "Unknown")
          , ("reason", .str "Could not verify document type") ] ∧
      Event.modelCall Prompt.extract ∈ (POSTrun env).events := by
  intro env fd file w checkText hdb hfd hf hw hty hsz hg hparse
  have hdefault : parseHealthCheck env.jsonParse checkText = defaultVerdict := by
    simp [parseHealthCheck, hparse]
  refine ⟨hdefault, ?_⟩
  rw [POSTrun_validated hdb hfd hf hw hty hsz]
  have hp : getProp (parseHealthCheck env.jsonParse checkText) "isHealthDocument" =
      .ok (.bool true) := by
    rw [hdefault]; rfl
  rw [classifyStage_accept file w _ hg hp rfl]
  exact extractStage_mem_extract env file w _

/-- Witness for C1: an environment whose model replies never parse as JSON. -/
theorem claim_C1_witness :
    parseHealthCheck envNoParse.jsonParse "this is not json" =
      JsValue.obj
        [ ("isHealthDocument", .bool true)
        , ("confidence", .num "50")
        , ("documentType", .str "Unknown")
        , ("reason", .str "Could not verify document type") ] ∧
    Event.modelCall Prompt.extract ∈ (POSTrun envNoParse).events :=
  claim_C1_classifier_parse_fallback envNoParse
    { file := some sampleFile, walletAddress := some "0xabc" }
    sampleFile "0xabc" "this is not json" rfl rfl rfl rfl (by decide) (by decide) rfl rfl

/-! ### Claim C3: extractor parse failure is a hard 500 with a truncated excerpt -/

/-- C3: whenever the extractor raw output is not valid JSON after
fence-stripping, the endpoint returns a 500 failure envelope (no default
substitution) whose details string is the fixed diagnostic sentence followed by
at most the first 500 characters of the raw model output and an ellipsis
marker. -/
theorem claim_C3_extractor_parse_error :
    ∀ (env : Env) (fd : ReqForm) (file : FileData) (w : String)
      (checkText : String) (ihd : JsValue) (analysisText : String),
      env.dbConnect = .ok () →
      env.formData = some fd →
      fd.file = some file →
      fd.walletAddress = some w →
      ALLOWED_FILE_TYPES.contains file.type = true →
      file.size ≤ MAX_FILE_SIZE →
      env.generate Prompt.classify = .ok checkText →
      getProp (parseHealthCheck env.jsonParse checkText) "isHealthDocument" = .ok ihd →
      truthy ihd = true →
      env.generate Prompt.extract = .ok analysisText →
      env.jsonParse (cleanText analysisText) = none →
      (POSTrun env).response.status = 500 ∧
      (POSTrun env).response.success = false ∧
      (POSTrun env).response.error = some "Failed to parse AI analysis" ∧
      (POSTrun env).response.details =
        some ("The AI returned an invalid response format. Raw response: "
          ++ jsSubstring analysisText 500 ++ "...") ∧
      (jsSubstring analysisText 500).length ≤ 500 := by
  intro env fd file w checkText ihd analysisText hdb hfd hf hw hty hsz hg1 hp ht hg2 hparse
  have hrun : POSTrun env =
      ⟨parseFailResponse analysisText
      , [Event.dbConnect] ++ [Event.modelCall Prompt.classify] ++ [Event.modelCall Prompt.extract]
      , []⟩ := by
    rw [POSTrun_validated hdb hfd hf hw hty hsz,
      classifyStage_accept file w _ hg1 hp ht,
      extractStage_parseFail file w _ hg2 hparse]
  refine ⟨by simp [hrun, parseFailResponse], by simp [hrun, parseFailResponse],
    by simp [hrun, parseFailResponse], by simp [hrun, parseFailResponse], ?_⟩
  have hlen : (jsSubstring analysisText 500).length = (analysisText.data.take 500).length := rfl
  have hlen2 : (analysisText.data.take 500).length = min 500 analysisText.data.length :=
    List.length_take _ _
  omega

/-- Witness for C3: the classifier reply parses, the extractor reply does
not. -/
theorem claim_C3_witness :
    (POSTrun envExtractBad).response.status = 500 ∧
    (POSTrun envExtractBad).response.success = false ∧
    (POSTrun envExtractBad).response.error = some "Failed to parse AI analysis" ∧
    (POSTrun envExtractBad).response.details =
      some ("The AI returned an invalid response format. Raw response: "
        ++ jsSubstring "B" 500 ++ "...") ∧
    (jsSubstring "B" 500).length ≤ 500 :=
  claim_C3_extractor_parse_error envExtractBad
    { file := some sampleFile, walletAddress := some "0xabc" }
    sampleFile "0xabc" "A" (.bool true) "B" rfl rfl rfl rfl (by decide) (by decide)
    rfl (by rfl) rfl rfl (by rfl)

/-! ### Claim C2: a negative verdict stops the pipeline with a 400 -/

/-- C2: whenever the classifier reply parses to an object whose
`isHealthDocument` is `false`, the extraction call is never made and the
endpoint returns a 400 failure envelope whose details string embeds the
verdict's `documentType`, `confidence` and `reason` (as rendered by template
interpolation). -/
theorem claim_C2_not_health_rejection :
    ∀ (env : Env) (fd : ReqForm) (file : FileData) (w : String)
      (checkText : String) (fs : List (String × JsValue)),
      env.dbConnect = .ok () →
      env.formData = some fd →
      fd.file = some file →
      fd.walletAddress = some w →
      ALLOWED_FILE_TYPES.contains file.type = true →
      file.size ≤ MAX_FILE_SIZE →
      env.generate Prompt.classify = .ok checkText →
      env.jsonParse (cleanText checkText) = some (.obj fs) →
      lookupProp fs "isHealthDocument" = .bool false →
      Event.modelCall Prompt.extract ∉ (POSTrun env).events ∧
      (POSTrun env).response.status = 400 ∧
      (POSTrun env).response.success = false ∧
      (POSTrun env).response.error = some "This document is not health-related" ∧
      (POSTrun env).response.details =
        some (notHealthDetails (jsToString (lookupProp fs "documentType"))
          (jsToString (lookupProp fs "confidence"))
          (jsToString (lookupProp fs "reason"))) ∧
      ContainsStr ((POSTrun env).response.details.getD "")
        (jsToString (lookupProp fs "documentType")) ∧
      ContainsStr ((POSTrun env).response.details.getD "")
        (jsToString (lookupProp fs "confidence")) ∧
      ContainsStr ((POSTrun env).response.details.getD "")
        (jsToString (lookupProp fs "reason")) := by
  intro env fd file w checkText fs hdb hfd hf hw hty hsz hg hparse hfalse
  have hhc : parseHealthCheck env.jsonParse checkText = .obj fs := by
    simp [parseHealthCheck, hparse]
  have hp : getProp (parseHealthCheck env.jsonParse checkText) "isHealthDocument" =
      .ok (.bool false) := by
    rw [hhc]
    simp [getProp, hfalse]
  have hrun : POSTrun env =
      ⟨notHealthResponse (jsToString (lookupProp fs "documentType"))
          (jsToString (lookupProp fs "confidence"))
          (jsToString (lookupProp fs "reason"))
      , [Event.dbConnect] ++ [Event.modelCall Prompt.classify], []⟩ := by
    rw [POSTrun_validated hdb hfd hf hw hty hsz, classifyStage_reject file w _ hg hp rfl]
    simp [hhc, getPropD, getProp]
  refine ⟨by simp [hrun], by simp [hrun, notHealthResponse],
    by simp [hrun, notHealthResponse], by simp [hrun, notHealthResponse],
    by simp [hrun, notHealthResponse], ?_, ?_, ?_⟩
  · refine ⟨nhPart1
      , nhPart2 ++ jsToString (lookupProp fs "confidence") ++ nhPart3
          ++ jsToString (lookupProp fs "reason") ++ nhPart4, ?_⟩
    simp [hrun, notHealthResponse, notHealthDetails, strAppend_assoc]
  · refine ⟨nhPart1 ++ jsToString (lookupProp fs "documentType") ++ nhPart2
      , nhPart3 ++ jsToString (lookupProp fs "reason") ++ nhPart4, ?_⟩
    simp [hrun, notHealthResponse, notHealthDetails, strAppend_assoc]
  · refine ⟨nhPart1 ++ jsToString (lookupProp fs "documentType") ++ nhPart2
        ++ jsToString (lookupProp fs "confidence") ++ nhPart3
      , nhPart4, ?_⟩
    simp [hrun, notHealthResponse, notHealthDetails, strAppend_assoc]

/-- Witness for C2: a classifier verdict rejecting the document as an
invoice. -/
theorem claim_C2_witness :
    Event.modelCall Prompt.extract ∉ (POSTrun envRejected).events ∧
    (POSTrun envRejected).response.status = 400 ∧
    (POSTrun envRejected).response.success = false ∧
    (POSTrun envRejected).response.error = some "This document is not health-related" ∧
    (POSTrun envRejected).response.details =
      some (notHealthDetails
        (jsToString (lookupProp
          [ ("isHealthDocument", .bool false), ("documentType", .str "Invoice")
          , ("confidence", .num "95"), ("reason", .str "Financial document") ]
          "documentType"))
        (jsToString (lookupProp
          [ ("isHealthDocument", .bool false), ("documentType", .str "Invoice")
          , ("confidence", .num "95"), ("reason", .str "Financial document") ]
          "confidence"))
        (jsToString (lookupProp
          [ ("isHealthDocument", .bool false), ("documentType", .str "Invoice")
          , ("confidence", .num "95"), ("reason", .str "Financial document") ]
          "reason"))) ∧
    ContainsStr ((POSTrun envRejected).response.details.getD "")
      (jsToString (lookupProp
        [ ("isHealthDocument", .bool false), ("documentType", .str "Invoice")
        , ("confidence", .num "95"), ("reason", .str "Financial document") ]
        "documentType")) ∧
    ContainsStr ((POSTrun envRejected).response.details.getD "")
      (jsToString (lookupProp
        [ ("isHealthDocument", .bool false), ("documentType", .str "Invoice")
        , ("confidence", .num "95"), ("reason", .str "Financial document") ]
        "confidence")) ∧
    ContainsStr ((POSTrun envRejected).response.details.getD "")
      (jsToString (lookupProp
        [ ("isHealthDocument", .bool false), ("documentType", .str "Invoice")
        , ("confidence", .num "95"), ("reason", .str "Financial document") ]
        "reason")) :=
  claim_C2_not_health_rejection envRejected
    { file := some sampleFile, walletAddress := some "0xabc" }
    sampleFile "0xabc" "{}"
    [ ("isHealthDocument", .bool false), ("documentType", .str "Invoice")
    , ("confidence", .num "95"), ("reason", .str "Financial document") ]
    rfl rfl rfl rfl (by decide) (by decide) rfl rfl (by rfl)

/-! ### Claim C5: validation order (corrected) -/

/-- Counterexample to C5 as stated: on a request whose `file` field is missing,
validation fails (the endpoint replies 400 "no file"), yet a database call —
`dbConnect()`, issued as the first statement of the handler, before any
validation — has already happened. -/
theorem claim_C5_counterexample :
    Event.dbConnect ∈ (POSTrun envNoFile).events ∧
    (POSTrun envNoFile).response.status = 400 ∧
    (POSTrun envNoFile).response.success = false ∧
    (POSTrun envNoFile).response.error = some "Dosya bulunamadı. Lütfen bir dosya yükleyin." :=
  by decide

/-- C5 amended: the four validation checks are pure and precede every external
call except the database connection: any traced call other than `dbConnect`
(model calls, the insert, the reward call) implies all four checks passed.
The `dbConnect()` call itself is issued before validation. -/
theorem claim_C5_amended_validation_before_calls :
    ∀ (env : Env), ∀ e ∈ (POSTrun env).events, e ≠ Event.dbConnect →
      validationPassed env := by
  intro env e he hne
  rcases hdb : env.dbConnect with msg | u
  · have hev : (POSTrun env).events = [Event.dbConnect] := by simp [POSTrun, hdb]
    rw [hev] at he
    simp at he
    exact absurd he hne
  · rcases hfd : env.formData with _ | fd
    · have hev : (POSTrun env).events = [Event.dbConnect] := by simp [POSTrun, hdb, hfd]
      rw [hev] at he
      simp at he
      exact absurd he hne
    · rcases hf : fd.file with _ | file
      · have hev : (POSTrun env).events = [Event.dbConnect] := by
          simp [POSTrun, hdb, hfd, hf]
        rw [hev] at he
        simp at he
        exact absurd he hne
      · rcases hw : fd.walletAddress with _ | w
        · have hev : (POSTrun env).events = [Event.dbConnect] := by
            simp [POSTrun, hdb, hfd, hf, hw]
          rw [hev] at he
          simp at he
          exact absurd he hne
        · cases hty : ALLOWED_FILE_TYPES.contains file.type with
          | false =>
            have hmem : file.type ∉ ALLOWED_FILE_TYPES := by simpa using hty
            have hev : (POSTrun env).events = [Event.dbConnect] := by
              simp [POSTrun, hdb, hfd, hf, hw, hmem]
            rw [hev] at he
            simp at he
            exact absurd he hne
          | true =>
            by_cases hsz : file.size ≤ MAX_FILE_SIZE
            · exact ⟨fd, file, w, hfd, hf, hw, hty, hsz⟩
            · have hlt : MAX_FILE_SIZE < file.size := Nat.lt_of_not_le hsz
              have hmem : file.type ∈ ALLOWED_FILE_TYPES := by simpa using hty
              have hev : (POSTrun env).events = [Event.dbConnect] := by
                simp [POSTrun, hdb, hfd, hf, hw, hmem, hlt]
              rw [hev] at he
              simp at he
              exact absurd he hne

/-- Witness for the amended C5: the happy-path environment issues a
classification call, so its validation must have passed. -/
theorem claim_C5_amended_witness : validationPassed envHappy :=
  claim_C5_amended_validation_before_calls envHappy (Event.modelCall Prompt.classify)
    (by decide) (by decide)

/-! ### Claim C7: top-level catch substring mapping -/

/-- C7: every uncaught error reaching the top-level handler yields a 500
failure envelope whose error/details pair follows the substring rules in
priority order: "API key" wins over "quota", which wins over "invalid",
otherwise the generic error with the raw message as details. -/
theorem claim_C7_catch_all_mapping :
    ∀ (env : Env) (msg : String), ThrowsWith env msg →
      (POSTrun env).response.status = 500 ∧
      (POSTrun env).response.success = false ∧
      (strIncludes msg "API key" = true →
        (POSTrun env).response.error = some "API key hatası" ∧
        (POSTrun env).response.details = some "Gemini API key geçersiz veya eksik") ∧
      (strIncludes msg "API key" = false → strIncludes msg "quota" = true →
        (POSTrun env).response.error = some "API kotası aşıldı" ∧
        (POSTrun env).response.details = some "Günlük API kullanım limiti doldu") ∧
      (strIncludes msg "API key" = false → strIncludes msg "quota" = false →
        strIncludes msg "invalid" = true →
        (POSTrun env).response.error = some "Geçersiz dosya formatı" ∧
        (POSTrun env).response.details = some "Dosya formatı okunamadı veya bozuk") ∧
      (strIncludes msg "API key" = false → strIncludes msg "quota" = false →
        strIncludes msg "invalid" = false →
        (POSTrun env).response.error = some "Analiz sırasında bir hata oluştu" ∧
        (POSTrun env).response.details = some msg) := by
  intro env msg hthrow
  have hresp : (POSTrun env).response = errorResponse msg := by
    rcases hthrow with hdb | ⟨hdb, fd, file, w, hfd, hf, hw, hty, hsz, hrest⟩
    · simp [POSTrun, hdb]
    · rw [POSTrun_validated hdb hfd hf hw hty hsz]
      rcases hrest with hg | ⟨checkText, hg, hrest⟩
      · rw [classifyStage_genError file w _ hg]
      · rcases hrest with hp | ⟨ihd, hp, ht, hrest⟩
        · rw [classifyStage_propError file w _ hg hp]
        · rw [classifyStage_accept file w _ hg hp ht]
          rcases hrest with hg2 | ⟨analysisText, pa, hg2, hparse, hrest⟩
          · rw [extractStage_genError file w _ hg2]
          · rw [extractStage_parsed file w _ hg2 hparse]
            rcases hrest with hc | ⟨hc, hr⟩
            · rw [persistStage_dbError file w _ _ hc]
            · rw [persistStage_rewardError file w _ _ hc hr]
  refine ⟨?_, ?_, ?_, ?_, ?_, ?_⟩
  · rw [hresp]
    cases hA : strIncludes msg "API key" <;> cases hQ : strIncludes msg "quota" <;>
      cases hI : strIncludes msg "invalid" <;> simp [errorResponse, hA, hQ, hI]
  · rw [hresp]
    cases hA : strIncludes msg "API key" <;> cases hQ : strIncludes msg "quota" <;>
      cases hI : strIncludes msg "invalid" <;> simp [errorResponse, hA, hQ, hI]
  · intro hA
    rw [hresp]
    constructor <;> simp [errorResponse, hA]
  · intro hA hQ
    rw [hresp]
    constructor <;> simp [errorResponse, hA, hQ]
  · intro hA hQ hI
    rw [hresp]
    constructor <;> simp [errorResponse, hA, hQ, hI]
  · intro hA hQ hI
    rw [hresp]
    constructor <;> simp [errorResponse, hA, hQ, hI]

/-- Witness for C7: an environment whose database connection throws "boom". -/
theorem claim_C7_witness :
    (POSTrun envDbDown).response.status = 500 ∧
    (POSTrun envDbDown).response.success = false ∧
    (strIncludes "boom" "API key" = true →
      (POSTrun envDbDown).response.error = some "API key hatası" ∧
      (POSTrun envDbDown).response.details = some "Gemini API key geçersiz veya eksik") ∧
    (strIncludes "boom" "API key" = false → strIncludes "boom" "quota" = true →
      (POSTrun envDbDown).response.error = some "API kotası aşıldı" ∧
      (POSTrun envDbDown).response.details = some "Günlük API kullanım limiti doldu") ∧
    (strIncludes "boom" "API key" = false → strIncludes "boom" "quota" = false →
      strIncludes "boom" "invalid" = true →
      (POSTrun envDbDown).response.error = some "Geçersiz dosya formatı" ∧
      (POSTrun envDbDown).response.details = some "Dosya formatı okunamadı veya bozuk") ∧
    (strIncludes "boom" "API key" = false → strIncludes "boom" "quota" = false →
      strIncludes "boom" "invalid" = false →
      (POSTrun envDbDown).response.error = some "Analiz sırasında bir hata oluştu" ∧
      (POSTrun envDbDown).response.details = some "boom") :=
  claim_C7_catch_all_mapping envDbDown "boom" (Or.inl rfl)

/-! ### Claim C10: the insert precedes the reward call and is not rolled back -/

/-- C10: the database insert is issued before the reward-ledger call; when the
insert succeeds and the reward call fails, the endpoint returns a 500 failure
envelope while the persisted record remains stored. -/
theorem claim_C10_persist_before_reward :
    ∀ (env : Env) (fd : ReqForm) (file : FileData) (w : String)
      (checkText : String) (ihd : JsValue) (analysisText : String) (pa : JsValue)
      (msg : String),
      env.dbConnect = .ok () →
      env.formData = some fd →
      fd.file = some file →
      fd.walletAddress = some w →
      ALLOWED_FILE_TYPES.contains file.type = true →
      file.size ≤ MAX_FILE_SIZE →
      env.generate Prompt.classify = .ok checkText →
      getProp (parseHealthCheck env.jsonParse checkText) "isHealthDocument" = .ok ihd →
      truthy ihd = true →
      env.generate Prompt.extract = .ok analysisText →
      env.jsonParse (cleanText analysisText) = some pa →
      env.dbCreate = .ok () →
      env.reward = .error msg →
      (POSTrun env).response.status = 500 ∧
      (POSTrun env).response.success = false ∧
      (POSTrun env).events =
        [ Event.dbConnect, Event.modelCall Prompt.classify, Event.modelCall Prompt.extract
        , Event.dbCreate, Event.reward ] ∧
      ({ walletAddress := w, fileName := file.name, fileSize := file.size
       , fileType := file.type, format := "json", analysisData := pa } : SavedRecord)
        ∈ (POSTrun env).saved := by
  intro env fd file w checkText ihd analysisText pa msg
  intro hdb hfd hf hw hty hsz hg1 hp ht hg2 hparse hcreate hreward
  have hrun : POSTrun env =
      ⟨errorResponse msg
      , [Event.dbConnect] ++ [Event.modelCall Prompt.classify]
          ++ [Event.modelCall Prompt.extract] ++ [Event.dbCreate, Event.reward]
      , [{ walletAddress := w, fileName := file.name, fileSize := file.size
         , fileType := file.type, format := "json", analysisData := pa }]⟩ := by
    rw [POSTrun_validated hdb hfd hf hw hty hsz,
      classifyStage_accept file w _ hg1 hp ht,
      extractStage_parsed file w _ hg2 hparse,
      persistStage_rewardError file w _ _ hcreate hreward]
  have hresp : (POSTrun env).response = errorResponse msg := by rw [hrun]
  refine ⟨?_, ?_, by simp [hrun], by simp [hrun]⟩
  · rw [hresp]
    cases hA : strIncludes msg "API key" <;> cases hQ : strIncludes msg "quota" <;>
      cases hI : strIncludes msg "invalid" <;> simp [errorResponse, hA, hQ, hI]
  · rw [hresp]
    cases hA : strIncludes msg "API key" <;> cases hQ : strIncludes msg "quota" <;>
      cases hI : strIncludes msg "invalid" <;> simp [errorResponse, hA, hQ, hI]

/-- Witness for C10: everything succeeds except the reward-ledger call. -/
theorem claim_C10_witness :
    (POSTrun envRewardFails).response.status = 500 ∧
    (POSTrun envRewardFails).response.success = false ∧
    (POSTrun envRewardFails).events =
      [ Event.dbConnect, Event.modelCall Prompt.classify, Event.modelCall Prompt.extract
      , Event.dbCreate, Event.reward ] ∧
    ({ walletAddress := "0xabc", fileName := sampleFile.name, fileSize := sampleFile.size
     , fileType := sampleFile.type, format := "json", analysisData := acceptVerdict }
      : SavedRecord) ∈ (POSTrun envRewardFails).saved :=
  claim_C10_persist_before_reward envRewardFails
    { file := some sampleFile, walletAddress := some "0xabc" }
    sampleFile "0xabc" "{}" (.bool true) "{}" acceptVerdict "reward ledger unavailable"
    rfl rfl rfl rfl (by decide) (by decide) rfl (by rfl) rfl rfl (by rfl) rfl rfl

/-! ### Support lemmas for the fence round-trip (claim C6) -/

theorem dropNl_nil : dropNl [] = [] := rfl

theorem dropNl_cons_nl (l : List Char) : dropNl ('\n' :: l) = l := by
  simp [dropNl]

theorem dropNl_cons_ne {c : Char} (h : c ≠ '\n') (l : List Char) :
    dropNl (c :: l) = c :: l := by
  simp [dropNl, h]

theorem drop_append_le : ∀ (n : Nat) (l m : List Char), n ≤ l.length →
    List.drop n (l ++ m) = List.drop n l ++ m := by
  intro n
  induction n with
  | zero => intro l m _; rfl
  | succ n ih =>
    intro l m h
    cases l with
    | nil => simp at h
    | cons c cs =>
      simp only [List.cons_append, List.drop_succ_cons]
      exact ih cs m (by simpa using h)

theorem isPref_append_right {t u : List Char} (h : isPref t u = true) (v : List Char) :
    isPref t (u ++ v) = true := by
  induction t generalizing u with
  | nil => rfl
  | cons a as ih =>
    cases u with
    | nil => simp [isPref] at h
    | cons b bs =>
      simp only [isPref, Bool.and_eq_true] at h
      simp only [List.cons_append, isPref, Bool.and_eq_true]
      exact ⟨h.1, ih h.2⟩

theorem removeJson_front (rest : List Char) :
    removeFence backtick fenceJsonTail (fenceJson ++ '\n' :: rest) =
      removeFence backtick fenceJsonTail rest := by
  have h : isPref (backtick :: fenceJsonTail)
      (backtick :: (fenceJsonTail ++ '\n' :: rest)) = true := by
    simpa using isPref_self_append (backtick :: fenceJsonTail) ('\n' :: rest)
  show removeFence backtick fenceJsonTail (backtick :: (fenceJsonTail ++ '\n' :: rest)) = _
  rw [removeFence_cons_pos h, List.drop_left, dropNl_cons_nl]

theorem removeFence3_front (rest : List Char) :
    removeFence backtick fenceTail (fence3 ++ '\n' :: rest) =
      removeFence backtick fenceTail rest := by
  have h : isPref (backtick :: fenceTail)
      (backtick :: (fenceTail ++ '\n' :: rest)) = true := by
    simpa using isPref_self_append (backtick :: fenceTail) ('\n' :: rest)
  show removeFence backtick fenceTail (backtick :: (fenceTail ++ '\n' :: rest)) = _
  rw [removeFence_cons_pos h, List.drop_left, dropNl_cons_nl]

theorem removeJson_skip_fence3 (rest : List Char) :
    removeFence backtick fenceJsonTail (fence3 ++ '\n' :: rest) =
      fence3 ++ '\n' :: removeFence backtick fenceJsonTail rest := by
  have hjn : (('j' : Char) == '\n') = false := by decide
  have hbn : (backtick == '\n') = false := by decide
  have h1 : isPref (backtick :: fenceJsonTail)
      (backtick :: backtick :: backtick :: '\n' :: rest) = false := by
    simp [isPref, fenceJsonTail, hjn]
  have h2 : isPref (backtick :: fenceJsonTail)
      (backtick :: backtick :: '\n' :: rest) = false := by
    simp [isPref, fenceJsonTail, hbn]
  have h3 : isPref (backtick :: fenceJsonTail) (backtick :: '\n' :: rest) = false := by
    simp [isPref, fenceJsonTail, hbn]
  have h4 : isPref (backtick :: fenceJsonTail) ('\n' :: rest) = false := by
    simp [isPref, hbn]
  show removeFence backtick fenceJsonTail
      (backtick :: backtick :: backtick :: '\n' :: rest) = _
  rw [removeFence_cons_neg h1, removeFence_cons_neg h2, removeFence_cons_neg h3,
    removeFence_cons_neg h4]
  rfl

theorem removeJson_suffix_core :
    ∀ (n : Nat) (s : List Char), s.length ≤ n →
      removeFence backtick fenceJsonTail (s ++ '\n' :: fence3) =
          removeFence backtick fenceJsonTail s ++ '\n' :: fence3 ∨
        removeFence backtick fenceJsonTail (s ++ '\n' :: fence3) =
          removeFence backtick fenceJsonTail s ++ fence3 := by
  intro n
  induction n with
  | zero =>
    intro s hs
    have h0 : s = [] := List.length_eq_zero.mp (Nat.le_zero.mp hs)
    subst h0
    left
    decide
  | succ n ih =>
    intro s hs
    cases s with
    | nil => left; decide
    | cons c cs =>
      simp only [List.length_cons, Nat.succ_le_succ_iff] at hs
      cases hP : isPref (backtick :: fenceJsonTail) (c :: cs) with
      | true =>
        have hlen : 6 ≤ cs.length := by
          have h7 := isPref_length hP
          simp [fenceJsonTail] at h7
          omega
        have hP2 : isPref (backtick :: fenceJsonTail)
            (c :: (cs ++ '\n' :: fence3)) = true := by
          simpa using isPref_append_right hP ('\n' :: fence3)
        rw [List.cons_append, removeFence_cons_pos hP2, removeFence_cons_pos hP]
        have hflen : fenceJsonTail.length = 6 := rfl
        rw [hflen, drop_append_le 6 cs ('\n' :: fence3) hlen]
        have hdl : (List.drop 6 cs).length = cs.length - 6 := List.length_drop 6 cs
        rcases hd : List.drop 6 cs with _ | ⟨c2, d2⟩
        · right
          decide
        · rw [hd] at hdl
          simp only [List.length_cons] at hdl
          by_cases hc2 : c2 = '\n'
          · subst hc2
            rw [List.cons_append, dropNl_cons_nl]
            exact ih d2 (by omega)
          · rw [List.cons_append, dropNl_cons_ne hc2, dropNl_cons_ne hc2]
            exact ih (c2 :: d2) (by simp only [List.length_cons]; omega)
      | false =>
        have hP2 : isPref (backtick :: fenceJsonTail)
            ((c :: cs) ++ '\n' :: fence3) = false :=
          isPref_no_nl (by decide) fence3 hP
        rw [List.cons_append] at hP2
        rw [List.cons_append, removeFence_cons_neg hP2, removeFence_cons_neg hP]
        rcases ih cs hs with h | h
        · left
          rw [h, List.cons_append]
        · right
          rw [h, List.cons_append]

theorem removeFence3_suffix_core :
    ∀ (n : Nat) (s : List Char), s.length ≤ n →
      removeFence backtick fenceTail (s ++ '\n' :: fence3) =
          removeFence backtick fenceTail s ++ ['\n'] ∨
        removeFence backtick fenceTail (s ++ '\n' :: fence3) =
          removeFence backtick fenceTail s := by
  intro n
  induction n with
  | zero =>
    intro s hs
    have h0 : s = [] := List.length_eq_zero.mp (Nat.le_zero.mp hs)
    subst h0
    left
    decide
  | succ n ih =>
    intro s hs
    cases s with
    | nil => left; decide
    | cons c cs =>
      simp only [List.length_cons, Nat.succ_le_succ_iff] at hs
      cases hP : isPref (backtick :: fenceTail) (c :: cs) with
      | true =>
        have hlen : 2 ≤ cs.length := by
          have h3 := isPref_length hP
          simp [fenceTail] at h3
          omega
        have hP2 : isPref (backtick :: fenceTail)
            (c :: (cs ++ '\n' :: fence3)) = true := by
          simpa using isPref_append_right hP ('\n' :: fence3)
        rw [List.cons_append, removeFence_cons_pos hP2, removeFence_cons_pos hP]
        have hflen : fenceTail.length = 2 := rfl
        rw [hflen, drop_append_le 2 cs ('\n' :: fence3) hlen]
        have hdl : (List.drop 2 cs).length = cs.length - 2 := List.length_drop 2 cs
        rcases hd : List.drop 2 cs with _ | ⟨c2, d2⟩
        · right
          decide
        · rw [hd] at hdl
          simp only [List.length_cons] at hdl
          by_cases hc2 : c2 = '\n'
          · subst hc2
            rw [List.cons_append, dropNl_cons_nl]
            exact ih d2 (by omega)
          · rw [List.cons_append, dropNl_cons_ne hc2, dropNl_cons_ne hc2]
            exact ih (c2 :: d2) (by simp only [List.length_cons]; omega)
      | false =>
        have hP2 : isPref (backtick :: fenceTail)
            ((c :: cs) ++ '\n' :: fence3) = false :=
          isPref_no_nl (by decide) fence3 hP
        rw [List.cons_append] at hP2
        rw [List.cons_append, removeFence_cons_neg hP2, removeFence_cons_neg hP]
        rcases ih cs hs with h | h
        · left
          rw [h, List.cons_append]
        · right
          rw [h]

theorem removeFence3_absorb_core :
    ∀ (n : Nat) (t : List Char), t.length ≤ n →
      removeFence backtick fenceTail (t ++ fence3) =
        removeFence backtick fenceTail t := by
  intro n
  induction n with
  | zero =>
    intro t ht
    have h0 : t = [] := List.length_eq_zero.mp (Nat.le_zero.mp ht)
    subst h0
    decide
  | succ n ih =>
    intro t ht
    cases t with
    | nil => decide
    | cons c cs =>
      simp only [List.length_cons, Nat.succ_le_succ_iff] at ht
      cases hP : isPref (backtick :: fenceTail) (c :: cs) with
      | true =>
        have hlen : 2 ≤ cs.length := by
          have h3 := isPref_length hP
          simp [fenceTail] at h3
          omega
        have hP2 : isPref (backtick :: fenceTail) (c :: (cs ++ fence3)) = true := by
          simpa using isPref_append_right hP fence3
        rw [List.cons_append, removeFence_cons_pos hP2, removeFence_cons_pos hP]
        have hflen : fenceTail.length = 2 := rfl
        rw [hflen, drop_append_le 2 cs fence3 hlen]
        have hdl : (List.drop 2 cs).length = cs.length - 2 := List.length_drop 2 cs
        rcases hd : List.drop 2 cs with _ | ⟨c2, d2⟩
        · decide
        · rw [hd] at hdl
          simp only [List.length_cons] at hdl
          by_cases hc2 : c2 = '\n'
          · subst hc2
            rw [List.cons_append, dropNl_cons_nl]
            exact ih d2 (by omega)
          · rw [List.cons_append, dropNl_cons_ne hc2, dropNl_cons_ne hc2]
            exact ih (c2 :: d2) (by simp only [List.length_cons]; omega)
      | false =>
        cases hP2 : isPref (backtick :: fenceTail) (c :: (cs ++ fence3)) with
        | false =>
          rw [List.cons_append, removeFence_cons_neg hP2, removeFence_cons_neg hP]
          exact congrArg (c :: ·) (ih cs ht)
        | true =>
          have hc : backtick = c := by
            simp only [isPref, Bool.and_eq_true, beq_iff_eq] at hP2
            exact hP2.1
          subst hc
          cases cs with
          | nil => decide
          | cons c2 cs2 =>
            have hc2 : backtick = c2 := by
              simp only [isPref, fenceTail, List.cons_append, Bool.and_eq_true,
                beq_iff_eq] at hP2
              exact hP2.2.1
            subst hc2
            cases cs2 with
            | nil => decide
            | cons c3 cs3 =>
              have h3 : (backtick == c3) = false := by
                have := hP
                simp only [isPref, fenceTail, Bool.and_eq_true, beq_self_eq_true,
                  true_and] at this
                cases hb : (backtick == c3) with
                | false => rfl
                | true =>
                  rw [hb] at this
                  simp [isPref] at this
              have h3t : (backtick == c3) = true := by
                simp only [isPref, fenceTail, List.cons_append, Bool.and_eq_true,
                  beq_self_eq_true, true_and] at hP2
                exact hP2.1
              rw [h3] at h3t
              exact absurd h3t (by simp)

theorem trimChars_append_nl (x : List Char) : trimChars (x ++ ['\n']) = trimChars x := by
  unfold trimChars
  rw [List.dropWhile_append]
  rcases hdw : x.dropWhile isWsChar with _ | ⟨y, ys⟩
  · simp [isWsChar]
  · have hnl : isWsChar '\n' = true := by decide
    simp only [List.isEmpty_cons, Bool.false_eq_true, if_false, List.reverse_append,
      List.reverse_cons, List.reverse_nil, List.nil_append, List.singleton_append,
      List.dropWhile_cons, hnl, if_true]

theorem stripTrim_suffix (s : List Char) :
    trimChars (removeFence backtick fenceTail
        (removeFence backtick fenceJsonTail (s ++ '\n' :: fence3))) =
      trimChars (removeFence backtick fenceTail
        (removeFence backtick fenceJsonTail s)) := by
  rcases removeJson_suffix_core s.length s (Nat.le_refl _) with h | h
  · rw [h]
    rcases removeFence3_suffix_core (removeFence backtick fenceJsonTail s).length
        (removeFence backtick fenceJsonTail s) (Nat.le_refl _) with h2 | h2
    · rw [h2, trimChars_append_nl]
    · rw [h2]
  · rw [h, removeFence3_absorb_core (removeFence backtick fenceJsonTail s).length
      (removeFence backtick fenceJsonTail s) (Nat.le_refl _)]

/-! ### Claim C6: fenced and unfenced replies parse identically -/

/-- C6: wrapping any model reply in triple-backtick code fences, with or
without a `json` language tag, then applying the route's cleaning-plus-parse
procedure, yields exactly the same parse outcome as applying it to the
unfenced text: the cleaned strings are equal, so any parser maps them to the
same result. -/
theorem claim_C6_fence_roundtrip :
    ∀ (parse : String → Option JsValue) (s : String),
      parse (cleanText ("```json\n" ++ s ++ "\n```")) = parse (cleanText s) ∧
      parse (cleanText ("```\n" ++ s ++ "\n```")) = parse (cleanText s) := by
  intro parse s
  have h1 : ("```json\n" ++ s ++ "\n```").data =
      fenceJson ++ '\n' :: (s.data ++ '\n' :: fence3) := by
    rw [strData_append, strData_append]
    have e1 : ("```json\n").data = fenceJson ++ ['\n'] := by decide
    have e2 : ("\n```").data = '\n' :: fence3 := by decide
    rw [e1, e2]
    simp [List.append_assoc]
  have h2 : ("```\n" ++ s ++ "\n```").data =
      fence3 ++ '\n' :: (s.data ++ '\n' :: fence3) := by
    rw [strData_append, strData_append]
    have e1 : ("```\n").data = fence3 ++ ['\n'] := by decide
    have e2 : ("\n```").data = '\n' :: fence3 := by decide
    rw [e1, e2]
    simp [List.append_assoc]
  constructor
  · apply congrArg
    show String.mk (trimChars (stripFences ("```json\n" ++ s ++ "\n```").data)) = _
    rw [h1]
    unfold stripFences
    rw [removeJson_front]
    exact congrArg String.mk (stripTrim_suffix s.data)
  · apply congrArg
    show String.mk (trimChars (stripFences ("```\n" ++ s ++ "\n```").data)) = _
    rw [h2]
    unfold stripFences
    rw [removeJson_skip_fence3, removeFence3_front]
    exact congrArg String.mk (stripTrim_suffix s.data)
